import Mathlib

set_option maxRecDepth 100000

/-!
Verification of the response-normalization and provider-abstraction pipeline of
git-commit-assistant (src/git_commit_assistant/ai_services.py).

The Python values that flow through the pipeline (results of json.loads, of the
permissive second-pass parse, and the records built by the normalizer) are
modelled by the inductive type JVal below.  Strings are modelled at the level
of their character lists; Python string methods (strip, lower, split, replace,
startswith, slicing) are given explicit executable models.  Unicode-specific
behaviour of Python str.lower / str.strip beyond the ASCII range is out of
scope: toLower is the ASCII case map and whitespace is the ASCII class, which
agrees with Python on every input exercised here.
-/

namespace GCA

/-- A Python/JSON value: None, bool, int, str, list, dict.
Floats are not modelled: the repository never produces or consumes one on the
paths verified here, and the modelled parsers treat a float literal as a parse
failure (which the pipeline maps to its default record just like any other
parse failure). -/
inductive JVal where
  | null : JVal
  | bool (b : Bool) : JVal
  | num (n : Int) : JVal
  | str (s : String) : JVal
  | arr (elems : List JVal) : JVal
  | obj (fields : List (String × JVal)) : JVal
deriving Repr, Inhabited

/-- A Python dict with string keys, as an insertion-ordered association list. -/
abbrev JObj := List (String × JVal)

mutual

/-- Structural (Python ==) equality on values. -/
def JVal.beq : JVal → JVal → Bool
  | .null, .null => true
  | .bool a, .bool b => a == b
  | .num a, .num b => a == b
  | .str a, .str b => a == b
  | .arr a, .arr b => JVal.beqList a b
  | .obj a, .obj b => JVal.beqObj a b
  | _, _ => false

def JVal.beqList : List JVal → List JVal → Bool
  | [], [] => true
  | a :: as, b :: bs => JVal.beq a b && JVal.beqList as bs
  | _, _ => false

def JVal.beqObj : List (String × JVal) → List (String × JVal) → Bool
  | [], [] => true
  | (ka, va) :: as, (kb, vb) :: bs => ka == kb && JVal.beq va vb && JVal.beqObj as bs
  | _, _ => false

end

/-- Python truthiness: bool(v). -/
def pyTruthy : JVal → Bool
  | .null => false
  | .bool b => b
  | .num n => n != 0
  | .str s => s != ""
  | .arr xs => !xs.isEmpty
  | .obj kvs => !kvs.isEmpty

/-- d.get(k) on a dict: the value of the first (and in well-formed dicts only)
binding of k. -/
def objGet : JObj → String → Option JVal
  | [], _ => none
  | (k, v) :: rest, key => if k = key then some v else objGet rest key

/-- d[k] = v on a dict: replace in place if the key is present (Python dicts
keep the original insertion position on reassignment), else append. -/
def objSet : JObj → String → JVal → JObj
  | [], key, v => [(key, v)]
  | (k, w) :: rest, key, v =>
      if k = key then (k, v) :: rest else (k, w) :: objSet rest key v

/-- Python dict equality (==): same key set, equal values; insertion order is
ignored.  Both dicts are assumed duplicate-free, as every dict built by the
modelled code is. -/
def dictEq (a b : JObj) : Bool :=
  a.all (fun kv =>
    match objGet b kv.1 with
    | some v => JVal.beq kv.2 v
    | none => false) &&
  b.all (fun kv => (objGet a kv.1).isSome)

/-! ## Python string primitives, at the character-list level -/

/-- The ASCII whitespace class used by the strip model. -/
def isSpace (c : Char) : Bool := c.isWhitespace

/-- str.strip on a character list: drop whitespace from both ends. -/
def stripL (cs : List Char) : List Char :=
  ((cs.dropWhile isSpace).reverse.dropWhile isSpace).reverse

/-- str.strip. -/
def pyStrip (s : String) : String := ⟨stripL s.data⟩

/-- The ASCII lower-case map on one character (model of str.lower). -/
def lowerChar (c : Char) : Char :=
  if 65 ≤ c.toNat ∧ c.toNat ≤ 90 then Char.ofNat (c.toNat + 32) else c

/-- str.lower. -/
def pyLower (s : String) : String := ⟨s.data.map lowerChar⟩

/-- s[:n] (slicing from the front). -/
def pyTake (n : Nat) (s : String) : String := ⟨s.data.take n⟩

/-- Decide whether pre is a prefix of l. -/
def isPrefixL : List Char → List Char → Bool
  | [], _ => true
  | _ :: _, [] => false
  | a :: as, b :: bs => a == b && isPrefixL as bs

/-- s.startswith(pre). -/
def pyStarts (pre s : String) : Bool := isPrefixL pre.data s.data

/-- Split off the text before the first occurrence of sep (assumed non-empty)
and the text after it; none when sep does not occur. -/
def findSplit (sep : List Char) : List Char → Option (List Char × List Char)
  | [] => none
  | c :: cs =>
    if isPrefixL sep (c :: cs) then some ([], (c :: cs).drop sep.length)
    else
      match findSplit sep cs with
      | some (pre, post) => some (c :: pre, post)
      | none => none

/-- sep in s (substring occurrence, for non-empty sep). -/
def occurs (sep s : String) : Bool := (findSplit sep.data s.data).isSome

/-- Fuel-driven worker for pySplit; the fuel passed in pySplit always
suffices because each recursive step consumes at least one character. -/
def pySplitAux (sep : List Char) : Nat → List Char → List (List Char)
  | 0, cs => [cs]
  | fuel + 1, cs =>
    match findSplit sep cs with
    | none => [cs]
    | some (pre, post) => pre :: pySplitAux sep fuel post

/-- s.split(sep) for a non-empty separator. -/
def pySplit (sep s : String) : List String :=
  (pySplitAux sep.data (s.data.length + 1) s.data).map (fun cs => ⟨cs⟩)

/-- Fuel-driven worker for pyReplace. -/
def pyReplaceAux (old new : List Char) : Nat → List Char → List Char
  | 0, cs => cs
  | fuel + 1, cs =>
    match findSplit old cs with
    | none => cs
    | some (pre, post) => pre ++ new ++ pyReplaceAux old new fuel post

/-- s.replace(old, new) for a non-empty pattern: left-to-right, non-overlapping,
the replacement text is not rescanned. -/
def pyReplace (old new s : String) : String :=
  ⟨pyReplaceAux old.data new.data (s.data.length + 1) s.data⟩

/-! ## Named constants for the brace and quote characters

The curly braces and the single quote delimit Python dict and string literals
throughout the parsers and printers below; naming them once via Char.ofNat
keeps every use site uniform. -/

/-- The left curly brace character. -/
def lbrace : Char := Char.ofNat 123

/-- The right curly brace character. -/
def rbrace : Char := Char.ofNat 125

/-- The single-quote (apostrophe) character. -/
def squote : Char := Char.ofNat 39

/-- The single-quote character as a string. -/
def squoteS : String := ⟨[squote]⟩

/-! ## Model of json.loads

A fuel-driven recursive-descent parser for strict JSON.  The fuel supplied by
jsonLoads always suffices (every recursive call follows the consumption of at
least one input character, and each character costs at most four fuel units),
so fuel exhaustion never changes the outcome.  Two deliberate restrictions,
documented at JVal: float literals and \\u escapes of astral/surrogate
code points are treated as parse failures. -/

/-- JSON whitespace. -/
def isJsonWs (c : Char) : Bool := c = ' ' || c = '\t' || c = '\n' || c = '\r'

/-- Skip JSON whitespace. -/
def skipWs (cs : List Char) : List Char := cs.dropWhile isJsonWs

/-- Value of a hex digit. -/
def hexVal (c : Char) : Option Nat :=
  if '0' ≤ c ∧ c ≤ '9' then some (c.toNat - 48)
  else if 'a' ≤ c ∧ c ≤ 'f' then some (c.toNat - 87)
  else if 'A' ≤ c ∧ c ≤ 'F' then some (c.toNat - 55)
  else none

/-- Decode one JSON string escape (the character after the backslash),
returning the decoded character and the remaining input. -/
def jsonEscape (e : Char) (rest : List Char) : Option (Char × List Char) :=
  if e = '"' ∨ e = '\\' ∨ e = '/' then some (e, rest)
  else if e = 'b' then some (Char.ofNat 8, rest)
  else if e = 'f' then some (Char.ofNat 12, rest)
  else if e = 'n' then some ('\n', rest)
  else if e = 'r' then some ('\r', rest)
  else if e = 't' then some ('\t', rest)
  else if e = 'u' then
    match rest with
    | h1 :: h2 :: h3 :: h4 :: rest2 =>
      match hexVal h1, hexVal h2, hexVal h3, hexVal h4 with
      | some a, some b, some c, some d =>
        let n := ((a * 16 + b) * 16 + c) * 16 + d
        if n < 0xd800 then some (Char.ofNat n, rest2) else none
      | _, _, _, _ => none
    | _ => none
  else none

/-- Parse the body of a JSON string (input begins after the opening quote),
returning content and remaining input.  Raw control characters are rejected,
matching json.loads in its default strict mode. -/
def jsonString : Nat → List Char → Option (List Char × List Char)
  | 0, _ => none
  | fuel + 1, cs =>
    match cs with
    | [] => none
    | c :: rest =>
      if c = '"' then some ([], rest)
      else if c = '\\' then
        match rest with
        | [] => none
        | e :: rest2 =>
          match jsonEscape e rest2 with
          | some (d, rest3) =>
            match jsonString fuel rest3 with
            | some (body, rem) => some (d :: body, rem)
            | none => none
          | none => none
      else if c.toNat < 32 then none
      else
        match jsonString fuel rest with
        | some (body, rem) => some (c :: body, rem)
        | none => none

/-- Parse a JSON integer literal (float syntax is rejected; see JVal). -/
def jsonNum (cs : List Char) : Option (JVal × List Char) :=
  let neg := isPrefixL ['-'] cs
  let body := if neg then cs.drop 1 else cs
  let ds := body.takeWhile Char.isDigit
  let rest := body.dropWhile Char.isDigit
  if ds.isEmpty then none
  else if ds.length > 1 ∧ isPrefixL ['0'] ds then none
  else
    match rest with
    | c :: _ =>
      if c = '.' ∨ c = 'e' ∨ c = 'E' then none
      else
        let n : Int := Int.ofNat (ds.foldl (fun a c => a * 10 + (c.toNat - 48)) 0)
        some (.num (if neg then -n else n), rest)
    | [] =>
      let n : Int := Int.ofNat (ds.foldl (fun a c => a * 10 + (c.toNat - 48)) 0)
      some (.num (if neg then -n else n), rest)

mutual

/-- Parse one JSON value. -/
def jsonVal : Nat → List Char → Option (JVal × List Char)
  | 0, _ => none
  | fuel + 1, cs =>
    match skipWs cs with
    | [] => none
    | c :: rest =>
      if c = lbrace then jsonObjStart fuel rest
      else if c = '[' then jsonArrStart fuel rest
      else if c = '"' then
        match jsonString fuel rest with
        | some (body, rem) => some (.str ⟨body⟩, rem)
        | none => none
      else if isPrefixL ['t', 'r', 'u', 'e'] (c :: rest) then
        some (.bool true, (c :: rest).drop 4)
      else if isPrefixL ['f', 'a', 'l', 's', 'e'] (c :: rest) then
        some (.bool false, (c :: rest).drop 5)
      else if isPrefixL ['n', 'u', 'l', 'l'] (c :: rest) then
        some (.null, (c :: rest).drop 4)
      else jsonNum (c :: rest)

/-- Parse the inside of a JSON array (input begins after the opening bracket). -/
def jsonArrStart : Nat → List Char → Option (JVal × List Char)
  | 0, _ => none
  | fuel + 1, cs =>
    match skipWs cs with
    | c :: rest =>
      if c = ']' then some (.arr [], rest)
      else
        match jsonVal fuel (c :: rest) with
        | some (v, rem) => jsonArrRest fuel rem [v]
        | none => none
    | [] => none

/-- Parse the continuation of a JSON array after a parsed element. -/
def jsonArrRest : Nat → List Char → List JVal → Option (JVal × List Char)
  | 0, _, _ => none
  | fuel + 1, cs, acc =>
    match skipWs cs with
    | c :: rest =>
      if c = ']' then some (.arr acc, rest)
      else if c = ',' then
        match jsonVal fuel rest with
        | some (v, rem) => jsonArrRest fuel rem (acc ++ [v])
        | none => none
      else none
    | [] => none

/-- Parse the inside of a JSON object (input begins after the opening brace).
Duplicate keys overwrite in place, as in Python dict construction. -/
def jsonObjStart : Nat → List Char → Option (JVal × List Char)
  | 0, _ => none
  | fuel + 1, cs =>
    match skipWs cs with
    | c :: rest =>
      if c = rbrace then some (.obj [], rest)
      else jsonObjPair fuel (c :: rest) []
    | [] => none

/-- Parse one key-value pair of a JSON object, then its continuation. -/
def jsonObjPair : Nat → List Char → JObj → Option (JVal × List Char)
  | 0, _, _ => none
  | fuel + 1, cs, acc =>
    match skipWs cs with
    | c :: rest =>
      if c = '"' then
        match jsonString fuel rest with
        | some (key, rem) =>
          match skipWs rem with
          | d :: rem2 =>
            if d = ':' then
              match jsonVal fuel rem2 with
              | some (v, rem3) => jsonObjRest fuel rem3 (objSet acc ⟨key⟩ v)
              | none => none
            else none
          | [] => none
        | none => none
      else none
    | [] => none

/-- Parse the continuation of a JSON object after a parsed pair. -/
def jsonObjRest : Nat → List Char → JObj → Option (JVal × List Char)
  | 0, _, _ => none
  | fuel + 1, cs, acc =>
    match skipWs cs with
    | c :: rest =>
      if c = rbrace then some (.obj acc, rest)
      else if c = ',' then jsonObjPair fuel rest acc
      else none
    | [] => none

end

/-- Model of json.loads: parse one JSON value and require that only whitespace
remains. -/
def jsonLoads (s : String) : Option JVal :=
  match jsonVal (4 * s.data.length + 16) s.data with
  | some (v, rest) => if (skipWs rest).isEmpty then some v else none
  | none => none

/-! ## Model of the permissive second pass (Python eval)

ai_services.py line 139 passes the cleaned text to Python eval inside a bare
try/except, so any evaluation error becomes the default record.  eval runs the
full Python expression language; that cannot be embedded, so it is modelled on
a fragment: literal expressions (strings with single or double quotes, ints,
True/False/None, lists and dicts with optional trailing commas) plus the
binary + operator on strings and on ints, the representative construct showing
that eval computes rather than merely parses.  The real eval accepts strictly
more (floats, tuples, comprehensions, calls, names, ...); every input outside
the fragment is modelled as an evaluation failure, which the pipeline maps to
the default record exactly as it maps a real eval error.  Dict keys are
restricted to string-valued expressions (JObj keys are strings).

The same grammar with the + operator disabled, literalEval below, is the
strict literal-structure parser that the specification demands in place of
eval; it is the spec-side reference point for claim C3 and is compared against
the eval model. -/

/-- Whitespace skipped by the eval-fragment parser.  Python is stricter about
newlines outside brackets; the model treats newlines as plain spaces, which
only matters for inputs that are failures on both sides of every claim proved
here. -/
def skipPyWs (cs : List Char) : List Char := cs.dropWhile isSpace

/-- Parse the body of a Python string literal with the given quote character,
decoding the common escapes. -/
def pyStringLit (q : Char) : Nat → List Char → Option (List Char × List Char)
  | 0, _ => none
  | fuel + 1, cs =>
    match cs with
    | [] => none
    | c :: rest =>
      if c = q then some ([], rest)
      else if c = '\\' then
        match rest with
        | [] => none
        | e :: rest2 =>
          let d? : Option Char :=
            if e = '\\' ∨ e = '"' ∨ e = squote then some e
            else if e = 'n' then some '\n'
            else if e = 'r' then some '\r'
            else if e = 't' then some '\t'
            else none
          match d? with
          | some d =>
            match pyStringLit q fuel rest2 with
            | some (body, rem) => some (d :: body, rem)
            | none => none
          | none => none
      else if c = '\n' then none
      else
        match pyStringLit q fuel rest with
        | some (body, rem) => some (c :: body, rem)
        | none => none

/-- Parse a Python int literal (multi-digit literals with a leading zero are a
syntax error in Python 3, floats are outside the fragment). -/
def pyNumLit (cs : List Char) : Option (JVal × List Char) :=
  let neg := isPrefixL ['-'] cs
  let body := if neg then cs.drop 1 else cs
  let ds := body.takeWhile Char.isDigit
  let rest := body.dropWhile Char.isDigit
  if ds.isEmpty then none
  else if ds.length > 1 ∧ isPrefixL ['0'] ds then none
  else
    match rest with
    | c :: _ =>
      if c = '.' ∨ c = 'e' ∨ c = 'E' ∨ c = 'j' then none
      else
        let n : Int := Int.ofNat (ds.foldl (fun a c => a * 10 + (c.toNat - 48)) 0)
        some (.num (if neg then -n else n), rest)
    | [] =>
      let n : Int := Int.ofNat (ds.foldl (fun a c => a * 10 + (c.toNat - 48)) 0)
      some (.num (if neg then -n else n), rest)

/-- Python binary + on two values: concatenation on strings, addition on ints;
anything else in the fragment is a TypeError, i.e. an evaluation failure. -/
def pyAdd : JVal → JVal → Option JVal
  | .str a, .str b => some (.str (a ++ b))
  | .num a, .num b => some (.num (a + b))
  | _, _ => none

mutual

/-- Parse an expression of the fragment: an atom, optionally followed by
+ atom chains when allowPlus is set. -/
def pyExpr (allowPlus : Bool) : Nat → List Char → Option (JVal × List Char)
  | 0, _ => none
  | fuel + 1, cs =>
    match pyAtom allowPlus fuel cs with
    | some (v, rem) =>
      if allowPlus then pyPlusChain allowPlus fuel rem v else some (v, rem)
    | none => none

/-- Fold a chain of + operators left to right, evaluating as it goes. -/
def pyPlusChain (allowPlus : Bool) : Nat → List Char → JVal → Option (JVal × List Char)
  | 0, _, _ => none
  | fuel + 1, cs, acc =>
    match skipPyWs cs with
    | c :: rest =>
      if c = '+' then
        match pyAtom allowPlus fuel rest with
        | some (v, rem) =>
          match pyAdd acc v with
          | some w => pyPlusChain allowPlus fuel rem w
          | none => none
        | none => none
      else some (acc, cs)
    | [] => some (acc, cs)

/-- Parse one atom of the fragment. -/
def pyAtom (allowPlus : Bool) : Nat → List Char → Option (JVal × List Char)
  | 0, _ => none
  | fuel + 1, cs =>
    match skipPyWs cs with
    | [] => none
    | c :: rest =>
      if c = lbrace then pyDictStart allowPlus fuel rest
      else if c = '[' then pyListStart allowPlus fuel rest
      else if c = '"' ∨ c = squote then
        match pyStringLit c fuel rest with
        | some (body, rem) => some (.str ⟨body⟩, rem)
        | none => none
      else if isPrefixL ['T', 'r', 'u', 'e'] (c :: rest) then
        some (.bool true, (c :: rest).drop 4)
      else if isPrefixL ['F', 'a', 'l', 's', 'e'] (c :: rest) then
        some (.bool false, (c :: rest).drop 5)
      else if isPrefixL ['N', 'o', 'n', 'e'] (c :: rest) then
        some (.null, (c :: rest).drop 4)
      else pyNumLit (c :: rest)

/-- Parse the inside of a Python list literal (after the opening bracket). -/
def pyListStart (allowPlus : Bool) : Nat → List Char → Option (JVal × List Char)
  | 0, _ => none
  | fuel + 1, cs =>
    match skipPyWs cs with
    | c :: rest =>
      if c = ']' then some (.arr [], rest)
      else
        match pyExpr allowPlus fuel (c :: rest) with
        | some (v, rem) => pyListRest allowPlus fuel rem [v]
        | none => none
    | [] => none

/-- Parse the continuation of a Python list literal; trailing commas are
permitted, as in Python. -/
def pyListRest (allowPlus : Bool) : Nat → List Char → List JVal → Option (JVal × List Char)
  | 0, _, _ => none
  | fuel + 1, cs, acc =>
    match skipPyWs cs with
    | c :: rest =>
      if c = ']' then some (.arr acc, rest)
      else if c = ',' then
        match skipPyWs rest with
        | d :: rest2 =>
          if d = ']' then some (.arr acc, rest2)
          else
            match pyExpr allowPlus fuel (d :: rest2) with
            | some (v, rem) => pyListRest allowPlus fuel rem (acc ++ [v])
            | none => none
        | [] => none
      else none
    | [] => none

/-- Parse the inside of a Python dict literal (after the opening brace). -/
def pyDictStart (allowPlus : Bool) : Nat → List Char → Option (JVal × List Char)
  | 0, _ => none
  | fuel + 1, cs =>
    match skipPyWs cs with
    | c :: rest =>
      if c = rbrace then some (.obj [], rest)
      else pyDictPair allowPlus fuel (c :: rest) []
    | [] => none

/-- Parse one key-value pair of a Python dict literal; the key expression must
evaluate to a string (see the fragment description above). -/
def pyDictPair (allowPlus : Bool) : Nat → List Char → JObj → Option (JVal × List Char)
  | 0, _, _ => none
  | fuel + 1, cs, acc =>
    match pyExpr allowPlus fuel cs with
    | some (.str key, rem) =>
      match skipPyWs rem with
      | d :: rem2 =>
        if d = ':' then
          match pyExpr allowPlus fuel rem2 with
          | some (v, rem3) => pyDictRest allowPlus fuel rem3 (objSet acc key v)
          | none => none
        else none
      | [] => none
    | _ => none

/-- Parse the continuation of a Python dict literal; trailing commas are
permitted. -/
def pyDictRest (allowPlus : Bool) : Nat → List Char → JObj → Option (JVal × List Char)
  | 0, _, _ => none
  | fuel + 1, cs, acc =>
    match skipPyWs cs with
    | c :: rest =>
      if c = rbrace then some (.obj acc, rest)
      else if c = ',' then
        match skipPyWs rest with
        | d :: rest2 =>
          if d = rbrace then some (.obj acc, rest2)
          else pyDictPair allowPlus fuel (d :: rest2) acc
        | [] => none
      else none
    | [] => none

end

/-- Model of the source's permissive second pass, eval on the fragment. -/
def pyEvalModel (s : String) : Option JVal :=
  match pyExpr true (4 * s.data.length + 16) s.data with
  | some (v, rest) => if (skipPyWs rest).isEmpty then some v else none
  | none => none

/-- The strict literal-structure parser the specification prescribes in place
of eval: the same grammar with the + operator (and with it all computation)
disabled. -/
def literalEval (s : String) : Option JVal :=
  match pyExpr false (4 * s.data.length + 16) s.data with
  | some (v, rest) => if (skipPyWs rest).isEmpty then some v else none
  | none => none

/-! ## Python str() and json.dumps -/

mutual

/-- Python repr, restricted to the value fragment: containers print with
comma-space separators and single-quoted strings; string contents are emitted
verbatim (no claim verified here reprs a string that would need escaping). -/
def pyRepr : JVal → String
  | .null => "None"
  | .bool true => "True"
  | .bool false => "False"
  | .num n => toString n
  | .str s => squoteS ++ s ++ squoteS
  | .arr xs => "[" ++ pyReprList xs ++ "]"
  | .obj kvs => ⟨[lbrace]⟩ ++ pyReprObj kvs ++ ⟨[rbrace]⟩

/-- The comma-space separated repr of list elements. -/
def pyReprList : List JVal → String
  | [] => ""
  | [x] => pyRepr x
  | x :: y :: rest => pyRepr x ++ ", " ++ pyReprList (y :: rest)

/-- The comma-space separated repr of dict entries. -/
def pyReprObj : List (String × JVal) → String
  | [] => ""
  | [(k, v)] => squoteS ++ k ++ squoteS ++ ": " ++ pyRepr v
  | (k, v) :: y :: rest =>
    squoteS ++ k ++ squoteS ++ ": " ++ pyRepr v ++ ", " ++ pyReprObj (y :: rest)

end

/-- Python str(): identity on strings, repr on everything else. -/
def pyStr : JVal → String
  | .str s => s
  | v => pyRepr v

mutual

/-- Model of json.dumps with its default separators; string contents are
emitted verbatim (no serialized string in this development needs escaping). -/
def jsonDumps : JVal → String
  | .null => "null"
  | .bool true => "true"
  | .bool false => "false"
  | .num n => toString n
  | .str s => "\"" ++ s ++ "\""
  | .arr xs => "[" ++ jsonDumpsList xs ++ "]"
  | .obj kvs => ⟨[lbrace]⟩ ++ jsonDumpsObj kvs ++ ⟨[rbrace]⟩

/-- The comma-space separated serialization of array elements. -/
def jsonDumpsList : List JVal → String
  | [] => ""
  | [x] => jsonDumps x
  | x :: y :: rest => jsonDumps x ++ ", " ++ jsonDumpsList (y :: rest)

/-- The comma-space separated serialization of object entries. -/
def jsonDumpsObj : List (String × JVal) → String
  | [] => ""
  | [(k, v)] => "\"" ++ k ++ "\": " ++ jsonDumps v
  | (k, v) :: y :: rest =>
    "\"" ++ k ++ "\": " ++ jsonDumps v ++ ", " ++ jsonDumpsObj (y :: rest)

end

/-! ## The response normalizer (AIService._parse_ai_response)

Every definition below is a direct transcription of
src/git_commit_assistant/ai_services.py lines 98-193.  Python exceptions that
the source catches (the bare except around eval, the TypeError from iterating
a non-iterable detailed_description, the AttributeError from calling .strip()
on a non-string, all swallowed by the outer except and turned into the default
record) are modelled by Option: none at the validation level means the
function falls back to its default record. -/

/-- AIService.COMMIT_TYPES. -/
def COMMIT_TYPES : List (String × String) :=
  [("feat", "New feature"),
   ("fix", "Bug fix"),
   ("docs", "Documentation"),
   ("style", "Style/formatting"),
   ("refactor", "Code refactoring"),
   ("perf", "Performance"),
   ("test", "Testing"),
   ("chore", "Chores"),
   ("ci", "CI changes")]

/-- valid_types at ai_services.py line 179. -/
def validTypeNames : List String := COMMIT_TYPES.map Prod.fst

/-- AIService._get_default_response: the canonical default record. -/
def defaultResponse : JObj :=
  [("type", .str "chore"),
   ("scope", .str "core"),
   ("description", .str "update project files"),
   ("detailed_description", .arr
     [.str "- Make changes to project files",
      .str "- Update code structure",
      .str "- Ensure code quality standards"]),
   ("breaking_change", .bool false),
   ("breaking_description", .str "")]

/-- The clean-up phase of _parse_ai_response (lines 121-131): strip, take a
piece of the text determined by the markdown fences, drop bold markers,
strip again. -/
def cleanContent (content : String) : String :=
  let content := pyStrip content
  let content :=
    if occurs "```" content then
      if occurs "```json" content then (pySplit "```" content).getD 1 ""
      else (pySplit "```" content).getD 0 ""
    else content
  let content := if occurs "**" content then pyReplace "**" "" content else content
  pyStrip content

/-- The required-field check of line 150: type, scope and description must all
be present and truthy. -/
def requiredOk (kvs : JObj) : Bool :=
  pyTruthy ((objGet kvs "type").getD .null) &&
  pyTruthy ((objGet kvs "scope").getD .null) &&
  pyTruthy ((objGet kvs "description").getD .null)

/-- Line 157: a string detailed_description is split on newlines, blank lines
dropped, each surviving line stripped. -/
def splitLines (s : String) : List String :=
  ((pySplit "\n" s).filter (fun l => l != "" && pyStrip l != "")).map pyStrip

/-- Lines 155-157: the detailed_description value after the
isinstance(detailed_desc, str) branch. -/
def ddAfterSplit : JVal → JVal
  | .str s => .arr ((splitLines s).map JVal.str)
  | v => v

/-- Python iteration (for line in detailed_desc): lists yield their elements,
dicts their keys, strings their characters; iterating anything else raises
TypeError (modelled as none, swallowed by the outer except). -/
def pyIterList : JVal → Option (List JVal)
  | .arr xs => some xs
  | .obj kvs => some (kvs.map (fun kv => JVal.str kv.1))
  | .str s => some (s.data.map (fun c => JVal.str ⟨[c]⟩))
  | _ => none

/-- The comprehension filter of line 167: keep the entry when it is a truthy
string whose stripped form is non-empty. -/
def keptLine : JVal → Option String
  | .str s => if s != "" && pyStrip s != "" then some s else none
  | _ => none

/-- Line 165: prefix a detail line with a dash-space unless its stripped
content already starts with one (in which case the line is kept verbatim,
preserving any leading whitespace). -/
def formatLine (s : String) : String :=
  if pyStarts "- " (pyStrip s) then s else "- " ++ pyStrip s

/-- Lines 164-168: the formatted detailed_description list. -/
def formatLines (lines : List JVal) : List String :=
  (lines.filterMap keptLine).map formatLine

/-- Lines 163-189 of _parse_ai_response, after the detail lines have survived:
store the formatted detail list, coerce breaking_change to bool and
breaking_description to a stripped string, replace an out-of-vocabulary type
with chore, and lowercase, strip and truncate the description.  Every read of
the response dict happens at the program point the source reads it, but since
none of the intervening writes touches the key being read, each read is
written against the original kvs where that is provably the same value. -/
def validateAssemble (kvs : JObj) (formatted : List String) : JObj :=
  let r1 := objSet kvs "detailed_description" (.arr (formatted.map JVal.str))
  let r2 := objSet r1 "breaking_change"
    (.bool (pyTruthy ((objGet r1 "breaking_change").getD (.bool false))))
  let r3 := objSet r2 "breaking_description"
    (.str (pyStrip (pyStr ((objGet r2 "breaking_description").getD (.str "")))))
  let tyv := (objGet r3 "type").getD .null
  let r4 :=
    if validTypeNames.any (fun t => JVal.beq tyv (.str t)) then r3
    else objSet r3 "type" (.str "chore")
  let d0 := pyStrip (pyLower (pyStr ((objGet r4 "description").getD (.str ""))))
  let d := if d0.length > 72 then pyTake 69 d0 ++ "..." else d0
  objSet r4 "description" (.str d)

/-- Lines 144-189 of _parse_ai_response: validation and normalization of the
parsed value; none models every path on which the source returns its default
record.  (The source assigns the formatted detail list into the dict before
testing it for emptiness; the assignment is discarded on the default path, so
testing before assembling is the same function.) -/
def validateResponse (v : JVal) : Option JObj :=
  match v with
  | .obj kvs =>
    if requiredOk kvs then
      let dd := ddAfterSplit ((objGet kvs "detailed_description").getD (.arr []))
      if pyTruthy dd then
        match pyIterList dd with
        | some lines =>
          if (formatLines lines).isEmpty then none
          else some (validateAssemble kvs (formatLines lines))
        | none => none
      else none
    else none
  | _ => none

/-- AIService._parse_ai_response: the whole normalizer, total by construction
exactly as the source is total by its try/except wrappers. -/
def parseAiResponse : Option String → JObj
  | none => defaultResponse
  | some content =>
    let cleaned := cleanContent content
    match jsonLoads cleaned with
    | some v => (validateResponse v).getD defaultResponse
    | none =>
      match pyEvalModel cleaned with
      | some v => (validateResponse v).getD defaultResponse
      | none => defaultResponse

/-- The normalizer as invoked on an extracted content value that may not be a
string: _parse_ai_response calls content.strip(), which raises AttributeError
on a non-string and is swallowed into the default record by the outer
except. -/
def parseAiResponseVal : JVal → JObj
  | .str s => parseAiResponse (some s)
  | _ => defaultResponse

/-! ## Provider adapters (analyze_changes of the four service variants)

Network interaction is modelled by an environment assigning to the i-th HTTP
POST issued by a call either a transport failure (requests raising a
RequestException) or a response with a status code and a body; a body of none
models a response whose .json() raises.  A SendState records, in order, the
retry flag of every request issued (false for the plain request body, true for
the strengthened retry body) and the durations of the back-off sleeps
performed.  Each analyze_changes model returns the record the Python method
returns together with that bookkeeping; the outer try/except blocks of the
source, which convert every raised content-level exception into the default
record, are transcribed directly, so the models are total. -/

/-- An HTTP response: status code, and the parsed JSON body (none when the
body is not JSON, i.e. response.json() raises). -/
structure HttpResp where
  status : Nat
  body : Option JVal

/-- Outcome of one HTTP POST. -/
inductive NetOutcome where
  | exn : NetOutcome
  | resp (r : HttpResp) : NetOutcome

/-- Bookkeeping for one analyze_changes call. -/
structure SendState where
  nextIdx : Nat
  flags : List Bool
  sleeps : List Nat
deriving Repr, DecidableEq

/-- Initial bookkeeping. -/
def st0 : SendState := ⟨0, [], []⟩

/-- Issue one POST: consume the next environment outcome and record the retry
flag of the request body used. -/
def post (env : Nat → NetOutcome) (retryFlag : Bool) (st : SendState) :
    NetOutcome × SendState :=
  (env st.nextIdx, ⟨st.nextIdx + 1, st.flags ++ [retryFlag], st.sleeps⟩)

/-- Record a back-off sleep of the given duration in seconds. -/
def sleep (n : Nat) (st : SendState) : SendState :=
  ⟨st.nextIdx, st.flags, st.sleeps ++ [n]⟩

/-- v.get(k, dflt): none models the AttributeError raised when v is not a
dict (an error the extractors' except (KeyError, IndexError) does not catch,
so it propagates to the outer handler). -/
def pyGetD (v : JVal) (k : String) (dflt : JVal) : Option JVal :=
  match v with
  | .obj kvs => some ((objGet kvs k).getD dflt)
  | _ => none

/-- Result of a Python subscript v[0] or v[k]: a value, a KeyError/IndexError
(caught by the extractors), or a TypeError (never caught there). -/
inductive PyIdx where
  | ok (x : JVal) : PyIdx
  | keyIndexErr : PyIdx
  | typeErr : PyIdx

/-- v[0]: head of a list, IndexError when empty; KeyError on a dict (whose
keys here are strings, never 0); first character of a string; TypeError
otherwise. -/
def pyIndex0 : JVal → PyIdx
  | .arr [] => .keyIndexErr
  | .arr (x :: _) => .ok x
  | .obj _ => .keyIndexErr
  | .str s => match s.data with
    | [] => .keyIndexErr
    | c :: _ => .ok (.str ⟨[c]⟩)
  | _ => .typeErr

/-- k in v: dict key membership, list element membership, substring test on a
string; TypeError (none) otherwise. -/
def pyInKey (k : String) (v : JVal) : Option Bool :=
  match v with
  | .obj kvs => some (objGet kvs k).isSome
  | .arr xs => some (xs.any (fun x => JVal.beq x (.str k)))
  | .str s => some (occurs k s)
  | _ => none

/-- v[k] for a string key: dict lookup with KeyError when absent; TypeError on
every other value. -/
def pyGetItem (v : JVal) (k : String) : PyIdx :=
  match v with
  | .obj kvs =>
    match objGet kvs k with
    | some x => .ok x
    | none => .keyIndexErr
  | _ => .typeErr

/-- OpenAIService._extract_content and DeepseekService._extract_content (the
two are textually identical in the source):
response_data.get("choices", [default])[0].get("message", dict).get("content", "")
inside a try that catches KeyError/IndexError and returns the empty string;
AttributeError and TypeError propagate (none). -/
def extractChoices (body : JVal) : Option JVal :=
  match pyGetD body "choices" (.arr [.obj []]) with
  | none => none
  | some choices =>
    match pyIndex0 choices with
    | .keyIndexErr => some (.str "")
    | .typeErr => none
    | .ok c0 =>
      match pyGetD c0 "message" (.obj []) with
      | none => none
      | some msg => pyGetD msg "content" (.str "")

/-- The item loop of ClaudeService._extract_content: first item whose type
field equals the string text wins. -/
def claudeLoop : List JVal → Option JVal
  | [] => some (.str "")
  | item :: rest =>
    match pyGetD item "type" .null with
    | none => none
    | some t =>
      if JVal.beq t (.str "text") then pyGetD item "text" (.str "")
      else claudeLoop rest

/-- ClaudeService._extract_content: walk the content list; the empty string
when content is missing, falsy, or not a list. -/
def extractClaude (body : JVal) : Option JVal :=
  match pyGetD body "content" (.arr []) with
  | none => none
  | some content =>
    match content with
    | .arr [] => some (.str "")
    | .arr (item :: rest) => claudeLoop (item :: rest)
    | _ => some (.str "")

/-- BaseAPIService.analyze_changes (lines 205-252), parameterized by the
abstract _extract_content that DeepseekService instantiates: one request,
normalization, and a single automatic retry with the strengthened request body
when the normalized result equals (Python ==) the default record. -/
def baseAnalyze (extract : JVal → Option JVal) (env : Nat → NetOutcome)
    (diff files : String) : JObj × SendState :=
  if diff = "" ∧ files = "" then (defaultResponse, st0)
  else
    let (o, st) := post env false st0
    match o with
    | .exn => (defaultResponse, st)
    | .resp r =>
      if 400 ≤ r.status ∧ r.status < 600 then (defaultResponse, st)
      else
        match r.body with
        | none => (defaultResponse, st)
        | some body =>
          match extract body with
          | none => (defaultResponse, st)
          | some content =>
            if pyTruthy content then
              let result := parseAiResponseVal content
              if dictEq result defaultResponse then
                let (o2, st2) := post env true st
                match o2 with
                | .exn => (defaultResponse, st2)
                | .resp r2 =>
                  if 400 ≤ r2.status ∧ r2.status < 600 then (defaultResponse, st2)
                  else
                    match r2.body with
                    | none => (defaultResponse, st2)
                    | some body2 =>
                      match extract body2 with
                      | none => (defaultResponse, st2)
                      | some c2 =>
                        if pyTruthy c2 then (parseAiResponseVal c2, st2)
                        else (result, st2)
              else (result, st)
            else (defaultResponse, st)

/-- DeepseekService.analyze_changes: the base sequencing with the choices
extractor. -/
def deepseekAnalyze (env : Nat → NetOutcome) (diff files : String) :
    JObj × SendState :=
  baseAnalyze extractChoices env diff files

/-- The rate-limit retry loop of OpenAIService.analyze_changes (lines
321-346), one list entry per remaining attempt index: a 429 sleeps
min(2 ^ attempt, 8) seconds and retries (on the last attempt the loop simply
ends, leaving the 429 response to be processed); any other transport failure,
including raise_for_status on an error status, retries until the last attempt
re-raises (none). -/
def openAILoop (env : Nat → NetOutcome) :
    List Nat → SendState → Option HttpResp × SendState
  | [], st => (none, st)
  | attempt :: rest, st =>
    let (o, st') := post env false st
    match o with
    | .exn =>
      if rest.isEmpty then (none, st') else openAILoop env rest st'
    | .resp r =>
      if r.status = 429 then
        let st'' := sleep (min (2 ^ attempt) 8) st'
        if rest.isEmpty then (some r, st'') else openAILoop env rest st''
      else if 400 ≤ r.status ∧ r.status < 600 then
        if rest.isEmpty then (none, st') else openAILoop env rest st'
      else (some r, st')

/-- OpenAIService.analyze_changes (lines 312-380): the rate-limit loop, then
extraction, normalization and the same single degenerate-result retry as the
base class. -/
def openAIAnalyze (env : Nat → NetOutcome) (diff files : String) :
    JObj × SendState :=
  if diff = "" ∧ files = "" then (defaultResponse, st0)
  else
    match openAILoop env [0, 1, 2] st0 with
    | (none, st) => (defaultResponse, st)
    | (some r, st) =>
      match r.body with
      | none => (defaultResponse, st)
      | some body =>
        match extractChoices body with
        | none => (defaultResponse, st)
        | some content =>
          if pyTruthy content then
            let result := parseAiResponseVal content
            if dictEq result defaultResponse then
              let (o2, st2) := post env true st
              match o2 with
              | .exn => (defaultResponse, st2)
              | .resp r2 =>
                if 400 ≤ r2.status ∧ r2.status < 600 then (defaultResponse, st2)
                else
                  match r2.body with
                  | none => (defaultResponse, st2)
                  | some body2 =>
                    match extractChoices body2 with
                    | none => (defaultResponse, st2)
                    | some c2 =>
                      if pyTruthy c2 then (parseAiResponseVal c2, st2)
                      else (result, st2)
            else (result, st)
          else (defaultResponse, st)

/-- ClaudeService.analyze_changes (lines 485-524): a single request, an
explicit status-200 check, extraction and normalization.  The source contains
no retry of any kind in this method. -/
def claudeAnalyze (env : Nat → NetOutcome) (diff files : String) :
    JObj × SendState :=
  if diff = "" ∧ files = "" then (defaultResponse, st0)
  else
    let (o, st) := post env false st0
    match o with
    | .exn => (defaultResponse, st)
    | .resp r =>
      if r.status ≠ 200 then (defaultResponse, st)
      else
        match r.body with
        | none => (defaultResponse, st)
        | some body =>
          match extractClaude body with
          | none => (defaultResponse, st)
          | some content =>
            if pyTruthy content then (parseAiResponseVal content, st)
            else (defaultResponse, st)

/-- candidate.get("content", dict).get("parts", [default])[0].get("text", "")
with every possible exception collapsing to none: KeyError/IndexError are
caught by the method's inner except and AttributeError/TypeError by its outer
except, and both handlers return the default record. -/
def geminiChain (candidate : JVal) : Option JVal :=
  match pyGetD candidate "content" (.obj []) with
  | none => none
  | some c =>
    match pyGetD c "parts" (.arr [.obj []]) with
    | none => none
    | some p =>
      match pyIndex0 p with
      | .ok x => pyGetD x "text" (.str "")
      | _ => none

/-- GeminiService.analyze_changes (lines 545-675): envelope checks, a guarded
extraction chain, normalization, and one automatic retry with the
strengthened system prompt when the normalized result equals the default. -/
def geminiAnalyze (env : Nat → NetOutcome) (diff files : String) :
    JObj × SendState :=
  if diff = "" ∧ files = "" then (defaultResponse, st0)
  else
    let (o, st) := post env false st0
    match o with
    | .exn => (defaultResponse, st)
    | .resp r =>
      if 400 ≤ r.status ∧ r.status < 600 then (defaultResponse, st)
      else
        match r.body with
        | none => (defaultResponse, st)
        | some data =>
          match pyInKey "error" data with
          | none => (defaultResponse, st)
          | some true => (defaultResponse, st)
          | some false =>
            match pyInKey "candidates" data with
            | none => (defaultResponse, st)
            | some false => (defaultResponse, st)
            | some true =>
              match pyGetItem data "candidates" with
              | .typeErr => (defaultResponse, st)
              | .keyIndexErr => (defaultResponse, st)
              | .ok cands =>
                if pyTruthy cands then
                  match pyIndex0 cands with
                  | .typeErr => (defaultResponse, st)
                  | .keyIndexErr => (defaultResponse, st)
                  | .ok candidate =>
                    match pyInKey "content" candidate with
                    | none => (defaultResponse, st)
                    | some false => (defaultResponse, st)
                    | some true =>
                      match pyGetItem candidate "content" with
                      | .typeErr => (defaultResponse, st)
                      | .keyIndexErr => (defaultResponse, st)
                      | .ok cont =>
                        match pyInKey "parts" cont with
                        | none => (defaultResponse, st)
                        | some false => (defaultResponse, st)
                        | some true =>
                          match geminiChain candidate with
                          | none => (defaultResponse, st)
                          | some content =>
                            if pyTruthy content then
                              let result := parseAiResponseVal content
                              if dictEq result defaultResponse then
                                let (o2, st2) := post env true st
                                match o2 with
                                | .exn => (defaultResponse, st2)
                                | .resp r2 =>
                                  if 400 ≤ r2.status ∧ r2.status < 600 then (defaultResponse, st2)
                                  else
                                    match r2.body with
                                    | none => (defaultResponse, st2)
                                    | some data2 =>
                                      match pyInKey "candidates" data2 with
                                      | none => (defaultResponse, st2)
                                      | some false => (result, st2)
                                      | some true =>
                                        match pyGetItem data2 "candidates" with
                                        | .typeErr => (defaultResponse, st2)
                                        | .keyIndexErr => (defaultResponse, st2)
                                        | .ok cands2 =>
                                          if pyTruthy cands2 then
                                            match
                                              (match pyIndex0 cands2 with
                                               | .ok cand2 => geminiChain cand2
                                               | _ => none) with
                                            | none => (defaultResponse, st2)
                                            | some c2 =>
                                              if pyTruthy c2 then
                                                (parseAiResponseVal c2, st2)
                                              else (result, st2)
                                          else (result, st2)
                              else (result, st)
                            else (defaultResponse, st)
                else (defaultResponse, st)

/-- Build an environment from a list of outcomes; requests beyond the list
fail with a transport error. -/
def envOf (l : List NetOutcome) : Nat → NetOutcome := fun n => l.getD n .exn

/-- A 200 response with the given JSON body. -/
def okResp (v : JVal) : NetOutcome := .resp ⟨200, some v⟩

/-- An OpenAI/Deepseek-shaped response body carrying the given text. -/
def choicesEnvelope (s : String) : JVal :=
  .obj [("choices", .arr [.obj [("message", .obj [("content", .str s)])]])]

/-- A Claude-shaped response body carrying the given text. -/
def claudeEnvelope (s : String) : JVal :=
  .obj [("content", .arr [.obj [("type", .str "text"), ("text", .str s)]])]

/-- A Gemini-shaped response body carrying the given text. -/
def geminiEnvelope (s : String) : JVal :=
  .obj [("candidates", .arr
    [.obj [("content", .obj [("parts", .arr [.obj [("text", .str s)]])])]])]

/-! ## Concrete inputs used by counterexamples and witnesses -/

/-- A response text that parses under neither pass. -/
def garbageText : String := "not json at all"

/-- A rate-limited response (HTTP 429) with an empty JSON object body. -/
def resp429 : NetOutcome := .resp ⟨429, some (.obj [])⟩

/-- An environment that rate-limits every request. -/
def env429 : Nat → NetOutcome := fun _ => resp429

/-- Wrap a string in single quotes. -/
def sq (s : String) : String := squoteS ++ s ++ squoteS

/-- A single-quoted Python dict whose description field is the expression
string-plus-string: strict JSON rejects it, a pure literal parser rejects it,
and eval computes it. -/
def c3Input : String :=
  ⟨[lbrace]⟩ ++ sq "type" ++ ": " ++ sq "feat" ++ ", " ++
    sq "scope" ++ ": " ++ sq "core" ++ ", " ++
    sq "description" ++ ": " ++ sq "x" ++ " + " ++ sq "y" ++ ", " ++
    sq "detailed_description" ++ ": [" ++ sq "- a" ++ "]" ++ ⟨[rbrace]⟩

/-- A valid JSON payload in the shape the prompt requests (spec scenario 3). -/
def c4Payload : String :=
  "\x7b\"type\":\"feat\",\"scope\":\"core\",\"description\":\"Add login\"," ++
    "\"detailed_description\":[\"- added OAuth\",\"- added tests\"]," ++
    "\"breaking_change\":false,\"breaking_description\":\"\"\x7d"

/-- The payload of c4Payload wrapped in a JSON-tagged markdown fence. -/
def c4Fenced : String := "```json\n" ++ c4Payload ++ "\n```"

/-- Valid JSON whose scope is upper-case and whose detail line carries leading
whitespace before an existing dash prefix. -/
def c1Input : String :=
  "\x7b\"type\":\"feat\",\"scope\":\"API\",\"description\":\"Add stuff\"," ++
    "\"detailed_description\":[\"  - x\"]\x7d"

/-- Valid JSON whose single detail line is a tab followed by an existing
dash-prefixed line. -/
def c8Input : String :=
  "\x7b\"type\":\"fix\",\"scope\":\"api\",\"description\":\"Handle timeout\"," ++
    "\"detailed_description\":[\"\\t- y\"]\x7d"

/-- One hundred letters a. -/
def aHundred : String := ⟨List.replicate 100 'a'⟩

/-- A parsed object with a 100-character description. -/
def c7Obj : JObj :=
  [("type", .str "feat"), ("scope", .str "core"),
   ("description", .str aHundred),
   ("detailed_description", .arr [.str "- a"])]

/-- A parsed object carrying an extra field the schema does not mention. -/
def c10Obj : JObj :=
  [("extra", .num 42), ("type", .str "feat"), ("scope", .str "core"),
   ("description", .str "add x"),
   ("detailed_description", .arr [.str "- a"])]

/-- The invariants of every record _parse_ai_response returns (claim C1, with
the two clauses the code actually guarantees for scope and for detail lines):
a vocabulary type, a truthy scope, a lower-case trimmed description of at most
72 characters, a non-empty list of non-empty detail lines each of whose
stripped content starts with dash-space, a boolean breaking_change and a
string breaking_description. -/
structure GoodRecord (o : JObj) : Prop where
  type_valid : ∃ t, objGet o "type" = some (.str t) ∧ t ∈ validTypeNames
  scope_truthy : ∃ v, objGet o "scope" = some v ∧ pyTruthy v = true
  desc_ok : ∃ d, objGet o "description" = some (.str d) ∧
    pyLower d = d ∧ pyStrip d = d ∧ d.length ≤ 72
  details_ok : ∃ ls, objGet o "detailed_description" = some (.arr (ls.map JVal.str)) ∧
    ls ≠ [] ∧ ∀ s ∈ ls, s ≠ "" ∧ pyStarts "- " (pyStrip s) = true
  breaking_bool : ∃ b, objGet o "breaking_change" = some (.bool b)
  breaking_desc_str : ∃ s, objGet o "breaking_description" = some (.str s)

/-! ## Theorems -/

/-! ### Dictionary lemmas -/

lemma objGet_objSet_self (o : JObj) (k : String) (v : JVal) :
    objGet (objSet o k v) k = some v := by
  induction o with
  | nil => simp [objSet, objGet]
  | cons kv rest ih =>
    obtain ⟨k1, v1⟩ := kv
    by_cases h : k1 = k
    · simp [objSet, objGet, h]
    · simp [objSet, objGet, h, ih]

lemma objGet_objSet_ne (o : JObj) {k k' : String} (v : JVal) (h : k ≠ k') :
    objGet (objSet o k v) k' = objGet o k' := by
  induction o with
  | nil => simp [objSet, objGet, h]
  | cons kv rest ih =>
    obtain ⟨k1, v1⟩ := kv
    by_cases h1 : k1 = k
    · subst h1
      simp [objSet, objGet, h]
    · simp [objSet, objGet, h1, ih]

/-! ### Strip lemmas -/

lemma stripL_eq_rdrop (l : List Char) :
    stripL l = List.rdropWhile isSpace (l.dropWhile isSpace) := rfl

lemma head_not_of_dropWhile_self {p : Char → Bool} {c : Char} {r : List Char}
    (h : List.dropWhile p (c :: r) = c :: r) : p c = false := by
  by_cases hc : p c
  · rw [List.dropWhile_cons_of_pos hc] at h
    have h1 := congrArg List.length h
    have h2 : (r.dropWhile p).length ≤ r.length :=
      (List.dropWhile_suffix p).sublist.length_le
    simp at h1
    omega
  · simpa using hc

lemma dropWhile_stripL (l : List Char) :
    List.dropWhile isSpace (stripL l) = stripL l := by
  rw [stripL_eq_rdrop]
  rcases hpre : List.rdropWhile isSpace (l.dropWhile isSpace) with _ | ⟨c, t⟩
  · simp
  · obtain ⟨s, hs⟩ := List.rdropWhile_prefix isSpace (l.dropWhile isSpace)
    rw [hpre] at hs
    have hfix : List.dropWhile isSpace (l.dropWhile isSpace) = l.dropWhile isSpace :=
      List.dropWhile_idempotent _ _
    rw [← hs] at hfix
    have hc : isSpace c = false := head_not_of_dropWhile_self hfix
    rw [List.dropWhile_cons_of_neg (by simp [hc])]

lemma rdropWhile_stripL (l : List Char) :
    List.rdropWhile isSpace (stripL l) = stripL l := by
  rw [stripL_eq_rdrop]
  exact List.rdropWhile_idempotent _ _

lemma stripL_idem (l : List Char) : stripL (stripL l) = stripL l := by
  have h : stripL (stripL l) =
      List.rdropWhile isSpace (List.dropWhile isSpace (stripL l)) := stripL_eq_rdrop _
  rw [h, dropWhile_stripL, rdropWhile_stripL]

lemma pyStrip_idem (s : String) : pyStrip (pyStrip s) = pyStrip s :=
  congrArg String.mk (stripL_idem s.data)

lemma stripL_eq_self {l : List Char} (h1 : List.dropWhile isSpace l = l)
    (h2 : List.rdropWhile isSpace l = l) : stripL l = l := by
  rw [stripL_eq_rdrop, h1, h2]

lemma stripL_dash {t : List Char} (ht : t ≠ [])
    (h2 : List.rdropWhile isSpace t = t) :
    stripL ('-' :: ' ' :: t) = '-' :: ' ' :: t := by
  apply stripL_eq_self
  · exact List.dropWhile_cons_of_neg (by decide)
  · rw [List.rdropWhile_eq_self_iff]
    intro hl
    have hlast : ('-' :: ' ' :: t).getLast hl = t.getLast ht := by
      rw [List.getLast_cons (by simp : (' ' :: t) ≠ []), List.getLast_cons ht]
    rw [hlast]
    exact List.rdropWhile_eq_self_iff.mp h2 ht

lemma stripL_trunc {d : List Char} (hd : List.dropWhile isSpace d = d)
    (hlen : 72 < d.length) :
    stripL (d.take 69 ++ ['.', '.', '.']) = d.take 69 ++ ['.', '.', '.'] := by
  apply stripL_eq_self
  · cases d with
    | nil => simp at hlen
    | cons c r =>
      have hc : isSpace c = false := head_not_of_dropWhile_self hd
      rw [show (69 : Nat) = 68 + 1 from rfl, List.take_succ_cons, List.cons_append,
        List.dropWhile_cons_of_neg (by simp [hc])]
  · rw [show d.take 69 ++ ['.', '.', '.'] = (d.take 69 ++ ['.', '.']) ++ ['.'] by simp]
    rw [List.rdropWhile_concat_neg _ _ '.' (by decide)]

/-! ### Lower-case lemmas -/

lemma char_toNat_ofNat {n : Nat} (h : n < 55296) : (Char.ofNat n).toNat = n := by
  unfold Char.ofNat
  rw [dif_pos (Or.inl h)]
  rfl

lemma lowerChar_eq_self {c : Char} (h : ¬(65 ≤ c.toNat ∧ c.toNat ≤ 90)) :
    lowerChar c = c := by
  unfold lowerChar
  rw [if_neg h]

lemma lowerChar_not_upper (c : Char) :
    ¬(65 ≤ (lowerChar c).toNat ∧ (lowerChar c).toNat ≤ 90) := by
  unfold lowerChar
  split
  case isTrue h =>
    rw [char_toNat_ofNat (by omega)]
    omega
  case isFalse h => exact h

lemma lowerChar_idem (c : Char) : lowerChar (lowerChar c) = lowerChar c :=
  lowerChar_eq_self (lowerChar_not_upper c)

lemma map_eq_self_of_forall {α : Type} (f : α → α) (l : List α)
    (h : ∀ x ∈ l, f x = x) : l.map f = l := by
  induction l with
  | nil => rfl
  | cons a t ih =>
    simp only [List.map_cons, h a (by simp)]
    rw [ih (fun x hx => h x (by simp [hx]))]

lemma mem_stripL {l : List Char} {c : Char} (h : c ∈ stripL l) : c ∈ l := by
  have h1 : List.Sublist (stripL l) l := by
    rw [stripL_eq_rdrop]
    exact ((List.rdropWhile_prefix _ _).sublist).trans ((List.dropWhile_suffix _).sublist)
  exact h1.subset h

lemma pyLower_of_strip_lower (s : String) :
    pyLower (pyStrip (pyLower s)) = pyStrip (pyLower s) := by
  refine congrArg String.mk ?_
  apply map_eq_self_of_forall
  intro c hc
  have hm : c ∈ s.data.map lowerChar := mem_stripL hc
  obtain ⟨a, _, rfl⟩ := List.mem_map.mp hm
  exact lowerChar_idem a

/-! ### String bridging lemmas -/

lemma ne_empty_data {x : String} (h : x ≠ "") : x.data ≠ [] :=
  fun hd => h (congrArg String.mk hd)

lemma dash_ne_empty (t : String) : ("- " ++ t) ≠ "" := by
  intro h
  have hdata := congrArg String.data h
  simp at hdata

lemma pyStarts_dash (t : String) : pyStarts "- " ("- " ++ t) = true := by
  show isPrefixL ['-', ' '] ('-' :: ' ' :: t.data) = true
  simp [isPrefixL]

lemma trunc_length {d : String} (h : 72 < d.length) :
    (pyTake 69 d ++ "...").length = 72 := by
  have h0 : (pyTake 69 d ++ "...").length = (d.data.take 69).length + 3 := by
    show ((d.data.take 69) ++ ['.', '.', '.']).length = (d.data.take 69).length + 3
    rw [List.length_append]
    rfl
  rw [h0, List.length_take]
  have hdl : d.data.length = d.length := rfl
  omega

lemma formatLine_good {u : String} (hu1 : u ≠ "") (hu2 : pyStrip u ≠ "") :
    formatLine u ≠ "" ∧ pyStarts "- " (pyStrip (formatLine u)) = true := by
  unfold formatLine
  by_cases hc : pyStarts "- " (pyStrip u) = true
  · rw [if_pos hc]
    exact ⟨hu1, hc⟩
  · rw [if_neg hc]
    refine ⟨dash_ne_empty _, ?_⟩
    have hstrip : pyStrip ("- " ++ pyStrip u) = "- " ++ pyStrip u :=
      congrArg String.mk (stripL_dash (ne_empty_data hu2) (rdropWhile_stripL u.data))
    rw [hstrip]
    exact pyStarts_dash _

/-! ### Shape of a successful validation -/

lemma beq_str_eq {v : JVal} {t : String} (h : JVal.beq v (.str t) = true) :
    v = .str t := by
  cases v with
  | str s =>
    simp only [JVal.beq] at h
    simp only [beq_iff_eq] at h
    rw [h]
  | null => simp [JVal.beq] at h
  | bool b => simp [JVal.beq] at h
  | num n => simp [JVal.beq] at h
  | arr xs => simp [JVal.beq] at h
  | obj kvs => simp [JVal.beq] at h

lemma keptLine_some {a : JVal} {u : String} (h : keptLine a = some u) :
    u ≠ "" ∧ pyStrip u ≠ "" := by
  cases a with
  | str s0 =>
    simp only [keptLine] at h
    split at h
    next hcond =>
      injection h with h
      subst h
      simp only [Bool.and_eq_true, bne_iff_ne, ne_eq] at hcond
      exact ⟨hcond.1, hcond.2⟩
    next => simp at h
  | null => simp [keptLine] at h
  | bool b => simp [keptLine] at h
  | num n => simp [keptLine] at h
  | arr xs => simp [keptLine] at h
  | obj kvs => simp [keptLine] at h

lemma validate_shape {kvs r : JObj} (h : validateResponse (.obj kvs) = some r) :
    requiredOk kvs = true ∧
    ∃ lines,
      pyIterList (ddAfterSplit ((objGet kvs "detailed_description").getD (.arr []))) =
        some lines ∧
      formatLines lines ≠ [] ∧ r = validateAssemble kvs (formatLines lines) := by
  simp only [validateResponse] at h
  split at h
  next hreq =>
    split at h
    next hdd =>
      split at h
      next lines heq =>
        split at h
        next hempty => simp at h
        next hempty =>
          injection h with h
          exact ⟨hreq, lines, heq, by simpa using hempty, h.symm⟩
      next heq => simp at h
    next hdd => simp at h
  next hreq => simp at h

lemma objGet_typeFix (c : Prop) [Decidable c] (o : JObj) (k : String)
    (hk : "type" ≠ k) :
    objGet (if c then o else objSet o "type" (.str "chore")) k = objGet o k := by
  split
  · rfl
  · rw [objGet_objSet_ne _ _ hk]

lemma assemble_dd (kvs : JObj) (f : List String) :
    objGet (validateAssemble kvs f) "detailed_description" =
      some (.arr (f.map JVal.str)) := by
  simp only [validateAssemble]
  rw [objGet_objSet_ne _ _ (by decide), objGet_typeFix _ _ _ (by decide),
    objGet_objSet_ne _ _ (by decide), objGet_objSet_ne _ _ (by decide),
    objGet_objSet_self]

lemma assemble_scope (kvs : JObj) (f : List String) :
    objGet (validateAssemble kvs f) "scope" = objGet kvs "scope" := by
  simp only [validateAssemble]
  rw [objGet_objSet_ne _ _ (by decide), objGet_typeFix _ _ _ (by decide),
    objGet_objSet_ne _ _ (by decide), objGet_objSet_ne _ _ (by decide),
    objGet_objSet_ne _ _ (by decide)]

lemma assemble_bc (kvs : JObj) (f : List String) :
    objGet (validateAssemble kvs f) "breaking_change" =
      some (.bool (pyTruthy ((objGet kvs "breaking_change").getD (.bool false)))) := by
  simp only [validateAssemble]
  rw [objGet_objSet_ne _ _ (by decide), objGet_typeFix _ _ _ (by decide),
    objGet_objSet_ne _ _ (by decide), objGet_objSet_self,
    objGet_objSet_ne _ _ (by decide)]

lemma assemble_bd (kvs : JObj) (f : List String) :
    objGet (validateAssemble kvs f) "breaking_description" =
      some (.str (pyStrip (pyStr
        ((objGet kvs "breaking_description").getD (.str ""))))) := by
  simp only [validateAssemble]
  rw [objGet_objSet_ne _ _ (by decide), objGet_typeFix _ _ _ (by decide),
    objGet_objSet_self, objGet_objSet_ne _ _ (by decide),
    objGet_objSet_ne _ _ (by decide)]

lemma assemble_type_valid (kvs : JObj) (f : List String) :
    ∃ t, objGet (validateAssemble kvs f) "type" = some (.str t) ∧
      t ∈ validTypeNames := by
  simp only [validateAssemble]
  rw [objGet_objSet_ne _ _ (by decide)]
  split
  next hval =>
    rw [objGet_objSet_ne _ _ (by decide), objGet_objSet_ne _ _ (by decide),
      objGet_objSet_ne _ _ (by decide)] at hval ⊢
    obtain ⟨t, ht, hbeq⟩ := List.any_eq_true.mp hval
    have heq := beq_str_eq hbeq
    refine ⟨t, ?_, ht⟩
    rcases hg : objGet kvs "type" with _ | x
    · rw [hg] at heq
      simp at heq
    · rw [hg] at heq
      simp only [Option.getD_some] at heq
      rw [heq]
  next hval =>
    exact ⟨"chore", objGet_objSet_self _ _ _, by decide⟩

lemma assemble_desc (kvs : JObj) (f : List String) :
    objGet (validateAssemble kvs f) "description" =
      some (.str
        (if (pyStrip (pyLower (pyStr ((objGet kvs "description").getD (.str ""))))).length > 72
         then pyTake 69 (pyStrip (pyLower (pyStr ((objGet kvs "description").getD (.str ""))))) ++ "..."
         else pyStrip (pyLower (pyStr ((objGet kvs "description").getD (.str "")))))) := by
  simp only [validateAssemble]
  rw [objGet_objSet_self, objGet_typeFix _ _ _ (by decide),
    objGet_objSet_ne _ _ (by decide), objGet_objSet_ne _ _ (by decide),
    objGet_objSet_ne _ _ (by decide)]

lemma assemble_other (kvs : JObj) (f : List String) (k : String)
    (h1 : "description" ≠ k) (h2 : "type" ≠ k) (h3 : "breaking_description" ≠ k)
    (h4 : "breaking_change" ≠ k) (h5 : "detailed_description" ≠ k) :
    objGet (validateAssemble kvs f) k = objGet kvs k := by
  simp only [validateAssemble]
  rw [objGet_objSet_ne _ _ h1, objGet_typeFix _ _ _ h2, objGet_objSet_ne _ _ h3,
    objGet_objSet_ne _ _ h4, objGet_objSet_ne _ _ h5]

lemma pyLower_trunc (d : String) (h : pyLower d = d) :
    pyLower (pyTake 69 d ++ "...") = pyTake 69 d ++ "..." := by
  refine congrArg String.mk ?_
  show (d.data.take 69 ++ ['.', '.', '.']).map lowerChar =
    d.data.take 69 ++ ['.', '.', '.']
  rw [List.map_append, List.map_take]
  have hd : d.data.map lowerChar = d.data := congrArg String.data h
  rw [hd]
  rfl

/-! ### The record invariants -/

lemma good_default : GoodRecord defaultResponse := by
  constructor
  · exact ⟨"chore", rfl, by decide⟩
  · exact ⟨.str "core", rfl, rfl⟩
  · exact ⟨"update project files", rfl, by decide, by decide, by decide⟩
  · exact ⟨["- Make changes to project files", "- Update code structure",
      "- Ensure code quality standards"], rfl, by decide, by decide⟩
  · exact ⟨false, rfl⟩
  · exact ⟨"", rfl⟩

lemma good_validate {v : JVal} {r : JObj} (h : validateResponse v = some r) :
    GoodRecord r := by
  cases v with
  | obj kvs =>
    obtain ⟨hreq, lines, hiter, hne, hr⟩ := validate_shape h
    subst hr
    simp only [requiredOk, Bool.and_eq_true] at hreq
    obtain ⟨⟨hty, hsc⟩, hde⟩ := hreq
    constructor
    · exact assemble_type_valid kvs _
    · rcases hg : objGet kvs "scope" with _ | x
      · rw [hg] at hsc
        simp [pyTruthy] at hsc
      · refine ⟨x, by rw [assemble_scope, hg], ?_⟩
        rw [hg] at hsc
        simpa using hsc
    · set q0 := pyStrip (pyLower (pyStr ((objGet kvs "description").getD (.str ""))))
        with hq0
      by_cases hlen : q0.length > 72
      · refine ⟨pyTake 69 q0 ++ "...", ?_, ?_, ?_, ?_⟩
        · rw [assemble_desc, ← hq0, if_pos hlen]
        · exact pyLower_trunc q0 (pyLower_of_strip_lower _)
        · exact congrArg String.mk (stripL_trunc (dropWhile_stripL _) hlen)
        · exact (trunc_length hlen).le
      · push_neg at hlen
        refine ⟨q0, ?_, ?_, ?_, hlen⟩
        · rw [assemble_desc, ← hq0, if_neg (by omega)]
        · exact pyLower_of_strip_lower _
        · exact pyStrip_idem _
    · refine ⟨formatLines lines, by rw [assemble_dd], hne, ?_⟩
      intro s hs
      unfold formatLines at hs
      obtain ⟨u, hu, rfl⟩ := List.mem_map.mp hs
      obtain ⟨a, _, hk⟩ := List.mem_filterMap.mp hu
      obtain ⟨h1, h2⟩ := keptLine_some hk
      exact formatLine_good h1 h2
    · exact ⟨_, assemble_bc kvs _⟩
    · exact ⟨_, assemble_bd kvs _⟩
  | null => simp [validateResponse] at h
  | bool b => simp [validateResponse] at h
  | num n => simp [validateResponse] at h
  | str s => simp [validateResponse] at h
  | arr xs => simp [validateResponse] at h

lemma good_getD {o : Option JObj} (h : ∀ r, o = some r → GoodRecord r) :
    GoodRecord (o.getD defaultResponse) := by
  cases o with
  | none => exact good_default
  | some r => exact h r rfl

/-- C1 (amended): for every input, absent or arbitrary text, the normalizer
terminates and returns a record whose type is in the configured vocabulary,
whose scope is present and truthy exactly as supplied (an empty or missing
scope makes the whole record fall back to the default, whose scope is core),
whose description is lower-case, trimmed and at most 72 characters, whose
detail list is a non-empty list of non-empty strings each of whose stripped
content starts with dash-space, whose breaking_change is a boolean and whose
breaking_description is a string. -/
theorem c1_normalizer_invariants (c : Option String) :
    GoodRecord (parseAiResponse c) := by
  cases c with
  | none => exact good_default
  | some s =>
    simp only [parseAiResponse]
    cases hj : jsonLoads (cleanContent s) with
    | none =>
      cases he : pyEvalModel (cleanContent s) with
      | none => exact good_default
      | some v => exact good_getD (fun r hr => good_validate hr)
    | some v => exact good_getD (fun r hr => good_validate hr)

/-- C4: the fence-stripping step keeps the JSON language tag: splitting on the
triple-backtick fence yields the segment starting with the four letters json,
both parse passes then fail, and the fenced form of a valid payload normalizes
to the default record while the unwrapped payload normalizes to the real
commit suggestion, contradicting the claimed equivalence. -/
theorem c4_fence_keeps_tag :
    cleanContent c4Fenced = "json\n" ++ c4Payload ∧
    parseAiResponse (some c4Fenced) = defaultResponse ∧
    parseAiResponse (some c4Payload) =
      [("type", JVal.str "feat"), ("scope", JVal.str "core"),
       ("description", JVal.str "add login"),
       ("detailed_description",
        JVal.arr [JVal.str "- added OAuth", JVal.str "- added tests"]),
       ("breaking_change", JVal.bool false),
       ("breaking_description", JVal.str "")] ∧
    dictEq (parseAiResponse (some c4Payload)) defaultResponse = false :=
  ⟨rfl, rfl, rfl, rfl⟩

/-- C3: the permissive second pass is Python eval and it computes: on a
single-quoted payload whose description is the expression of two strings
joined by the plus operator, strict JSON parsing fails, the pure
literal-structure parser fails, yet the pipeline returns a non-default record
whose description is the computed concatenation - so the permissive path
neither agrees with a literal parser nor falls back to the default. -/
theorem c3_eval_computes :
    jsonLoads (cleanContent c3Input) = none ∧
    literalEval (cleanContent c3Input) = none ∧
    parseAiResponse (some c3Input) =
      [("type", JVal.str "feat"), ("scope", JVal.str "core"),
       ("description", JVal.str "xy"),
       ("detailed_description", JVal.arr [JVal.str "- a"]),
       ("breaking_change", JVal.bool false),
       ("breaking_description", JVal.str "")] ∧
    dictEq (parseAiResponse (some c3Input)) defaultResponse = false :=
  ⟨rfl, rfl, rfl, rfl⟩

/-- C1 counterexample: on a valid payload with an upper-case scope and a
detail line carrying leading whitespace, the normalizer returns the scope
without lowercasing it and the detail entry without a literal dash-space
prefix, refuting the claimed scope and detail-line invariants as stated. -/
theorem c1_counterexample :
    objGet (parseAiResponse (some c1Input)) "scope" = some (.str "API") ∧
    pyLower "API" ≠ "API" ∧
    objGet (parseAiResponse (some c1Input)) "detailed_description" =
      some (.arr [.str "  - x"]) ∧
    pyStarts "- " "  - x" = false :=
  ⟨rfl, by decide, rfl, rfl⟩

/-- C8 counterexample: a detail entry that reaches the normalizer as a list
element with a tab before its existing dash prefix is kept verbatim, so the
returned entry does not start with dash-space, refuting the claim that every
entry of a non-default result starts with the prefix. -/
theorem c8_counterexample :
    objGet (parseAiResponse (some c8Input)) "detailed_description" =
      some (.arr [.str "\t- y"]) ∧
    pyStarts "- " "\t- y" = false ∧
    dictEq (parseAiResponse (some c8Input)) defaultResponse = false :=
  ⟨rfl, rfl, rfl⟩

/-- C5 counterexample: the Claude variant issues no automatic retry: with a
successful first response whose content normalizes to the default record (as
the first conjunct certifies), analyze_changes issues exactly one request and
accepts the default, refuting the claim for this provider variant. -/
theorem c5_counterexample :
    dictEq (parseAiResponseVal (.str garbageText)) defaultResponse = true ∧
    (claudeAnalyze (envOf [okResp (claudeEnvelope garbageText),
        okResp (claudeEnvelope garbageText)]) "diff" "files").2.flags = [false] ∧
    dictEq (claudeAnalyze (envOf [okResp (claudeEnvelope garbageText),
        okResp (claudeEnvelope garbageText)]) "diff" "files").1
      defaultResponse = true :=
  ⟨rfl, rfl, rfl⟩

/-- C6 counterexample: the Deepseek variant (which runs the base-class
analyze_changes) does not retry on HTTP 429: in an environment that
rate-limits every request it issues exactly one request, sleeps not at all,
and returns the default, refuting the claim for this provider variant. -/
theorem c6_counterexample :
    (deepseekAnalyze env429 "diff" "files").2.flags = [false] ∧
    (deepseekAnalyze env429 "diff" "files").2.sleeps = [] ∧
    dictEq (deepseekAnalyze env429 "diff" "files").1 defaultResponse = true :=
  ⟨rfl, rfl, rfl⟩

/-- C2: content-level failures are absorbed: for each of the four provider
variants and each failure class - transport error on every request, HTTP error
status, a response body that is not JSON, a well-formed body missing the
expected envelope path, and semantically invalid content text (with the
automatic retry also failing) - analyze_changes returns the canonical default
record, whatever the diff and file list are; the models are total functions,
mirroring the outer except handlers through which the source converts every
raised content-level exception into this same default.  The final conjunct
adds the Gemini error-key envelope.  Construction (the provider lookup in
main.py) is outside these functions and is the only raising path. -/
theorem c2_content_failures_absorbed (diff files : String) :
    (deepseekAnalyze (envOf []) diff files).1 = defaultResponse ∧
    (openAIAnalyze (envOf []) diff files).1 = defaultResponse ∧
    (claudeAnalyze (envOf []) diff files).1 = defaultResponse ∧
    (geminiAnalyze (envOf []) diff files).1 = defaultResponse ∧
    (deepseekAnalyze (envOf [.resp ⟨500, some (.obj [])⟩]) diff files).1 = defaultResponse ∧
    (openAIAnalyze (envOf [.resp ⟨500, some (.obj [])⟩]) diff files).1 = defaultResponse ∧
    (claudeAnalyze (envOf [.resp ⟨500, some (.obj [])⟩]) diff files).1 = defaultResponse ∧
    (geminiAnalyze (envOf [.resp ⟨500, some (.obj [])⟩]) diff files).1 = defaultResponse ∧
    (deepseekAnalyze (envOf [.resp ⟨200, none⟩]) diff files).1 = defaultResponse ∧
    (openAIAnalyze (envOf [.resp ⟨200, none⟩]) diff files).1 = defaultResponse ∧
    (claudeAnalyze (envOf [.resp ⟨200, none⟩]) diff files).1 = defaultResponse ∧
    (geminiAnalyze (envOf [.resp ⟨200, none⟩]) diff files).1 = defaultResponse ∧
    (deepseekAnalyze (envOf [.resp ⟨200, some (.obj [])⟩]) diff files).1 = defaultResponse ∧
    (openAIAnalyze (envOf [.resp ⟨200, some (.obj [])⟩]) diff files).1 = defaultResponse ∧
    (claudeAnalyze (envOf [.resp ⟨200, some (.obj [])⟩]) diff files).1 = defaultResponse ∧
    (geminiAnalyze (envOf [.resp ⟨200, some (.obj [])⟩]) diff files).1 = defaultResponse ∧
    (deepseekAnalyze (envOf [okResp (choicesEnvelope garbageText)]) diff files).1 = defaultResponse ∧
    (openAIAnalyze (envOf [okResp (choicesEnvelope garbageText)]) diff files).1 = defaultResponse ∧
    (claudeAnalyze (envOf [okResp (claudeEnvelope garbageText)]) diff files).1 = defaultResponse ∧
    (geminiAnalyze (envOf [okResp (geminiEnvelope garbageText)]) diff files).1 = defaultResponse ∧
    (geminiAnalyze (envOf [okResp (.obj [("error", .str "quota")])]) diff files).1 = defaultResponse := by
  by_cases hdf : diff = "" ∧ files = "" <;>
    refine ⟨?_, ?_, ?_, ?_, ?_, ?_, ?_, ?_, ?_, ?_, ?_, ?_, ?_, ?_, ?_, ?_, ?_,
      ?_, ?_, ?_, ?_⟩ <;>
    simp only [deepseekAnalyze, openAIAnalyze, claudeAnalyze, geminiAnalyze,
      baseAnalyze] <;>
    first
    | (rw [if_pos hdf]; try rfl)
    | (rw [if_neg hdf]; try rfl)

/-- C5 (amended): for the Deepseek (base-class), OpenAI and Gemini variants,
when the first successful response normalizes to a record equal (Python ==) to
the canonical default, exactly one automatic retry is issued, with the
strengthened retry request body, before accepting the default - the request
log is exactly one plain request followed by one retry-flagged request; the
Claude variant issues no such retry and performs exactly one request. -/
theorem c5_degenerate_retry (s : String) (hs : s ≠ "")
    (hdef : dictEq (parseAiResponse (some s)) defaultResponse = true) :
    (deepseekAnalyze (envOf [okResp (choicesEnvelope s), okResp (choicesEnvelope s)])
      "d" "f").2.flags = [false, true] ∧
    dictEq (deepseekAnalyze (envOf [okResp (choicesEnvelope s), okResp (choicesEnvelope s)])
      "d" "f").1 defaultResponse = true ∧
    (openAIAnalyze (envOf [okResp (choicesEnvelope s), okResp (choicesEnvelope s)])
      "d" "f").2.flags = [false, true] ∧
    dictEq (openAIAnalyze (envOf [okResp (choicesEnvelope s), okResp (choicesEnvelope s)])
      "d" "f").1 defaultResponse = true ∧
    (geminiAnalyze (envOf [okResp (geminiEnvelope s), okResp (geminiEnvelope s)])
      "d" "f").2.flags = [false, true] ∧
    dictEq (geminiAnalyze (envOf [okResp (geminiEnvelope s), okResp (geminiEnvelope s)])
      "d" "f").1 defaultResponse = true ∧
    (claudeAnalyze (envOf [okResp (claudeEnvelope s), okResp (claudeEnvelope s)])
      "d" "f").2.flags = [false] := by
  refine ⟨?_, ?_, ?_, ?_, ?_, ?_, ?_⟩
  · simp only [deepseekAnalyze, baseAnalyze]
    rw [if_neg (by decide)]
    simp [post, envOf, st0, okResp, extractChoices, choicesEnvelope,
      pyGetD, objGet, pyIndex0, pyTruthy, parseAiResponseVal, hs, hdef]
  · simp only [deepseekAnalyze, baseAnalyze]
    rw [if_neg (by decide)]
    simp [post, envOf, st0, okResp, extractChoices, choicesEnvelope,
      pyGetD, objGet, pyIndex0, pyTruthy, parseAiResponseVal, hs, hdef]
  · simp only [openAIAnalyze]
    rw [if_neg (by decide)]
    simp [openAILoop, post, envOf, st0, okResp, sleep, extractChoices, choicesEnvelope,
      pyGetD, objGet, pyIndex0, pyTruthy, parseAiResponseVal, hs, hdef]
  · simp only [openAIAnalyze]
    rw [if_neg (by decide)]
    simp [openAILoop, post, envOf, st0, okResp, sleep, extractChoices, choicesEnvelope,
      pyGetD, objGet, pyIndex0, pyTruthy, parseAiResponseVal, hs, hdef]
  · simp only [geminiAnalyze]
    rw [if_neg (by decide)]
    simp [post, envOf, st0, okResp, geminiEnvelope, geminiChain, pyInKey, pyGetItem,
      pyGetD, objGet, pyIndex0, pyTruthy, parseAiResponseVal, hs, hdef]
  · simp only [geminiAnalyze]
    rw [if_neg (by decide)]
    simp [post, envOf, st0, okResp, geminiEnvelope, geminiChain, pyInKey, pyGetItem,
      pyGetD, objGet, pyIndex0, pyTruthy, parseAiResponseVal, hs, hdef]
  · simp only [claudeAnalyze]
    rw [if_neg (by decide)]
    simp [post, envOf, st0, okResp, extractClaude, claudeEnvelope, claudeLoop, JVal.beq,
      pyGetD, objGet, pyTruthy, parseAiResponseVal, hs]

/-- C5 witness: the hypotheses of c5_degenerate_retry hold at the concrete
garbage response text, and the base variant then issues exactly the plain
request followed by the retry-flagged request. -/
theorem c5_degenerate_retry_witness :
    garbageText ≠ "" ∧
    dictEq (parseAiResponse (some garbageText)) defaultResponse = true ∧
    (deepseekAnalyze (envOf [okResp (choicesEnvelope garbageText),
      okResp (choicesEnvelope garbageText)]) "d" "f").2.flags = [false, true] := by
  refine ⟨by decide, rfl, ?_⟩
  exact (c5_degenerate_retry garbageText (by decide) rfl).1

/-- C6 (amended): only the OpenAI variant retries on HTTP 429: in an
environment that rate-limits every request it issues three plain requests,
sleeping min(2 ^ attempt, 8) = 1, 2, 4 seconds after each, then gives up with
the default; the base/Deepseek, Claude and Gemini variants make a single
request, never sleep, and return the default. -/
theorem c6_openai_backoff (diff files : String) (h : ¬(diff = "" ∧ files = "")) :
    (openAIAnalyze env429 diff files).2.flags = [false, false, false] ∧
    (openAIAnalyze env429 diff files).2.sleeps = [1, 2, 4] ∧
    (openAIAnalyze env429 diff files).1 = defaultResponse ∧
    (deepseekAnalyze env429 diff files).2.flags = [false] ∧
    (deepseekAnalyze env429 diff files).2.sleeps = [] ∧
    (claudeAnalyze env429 diff files).2.flags = [false] ∧
    (claudeAnalyze env429 diff files).2.sleeps = [] ∧
    (geminiAnalyze env429 diff files).2.flags = [false] ∧
    (geminiAnalyze env429 diff files).2.sleeps = [] := by
  refine ⟨?_, ?_, ?_, ?_, ?_, ?_, ?_, ?_, ?_⟩ <;>
    simp only [openAIAnalyze, deepseekAnalyze, baseAnalyze, claudeAnalyze,
      geminiAnalyze] <;>
    (rw [if_neg h]; rfl)

/-- C6 witness: the backoff facts at a concrete non-empty diff and file
list. -/
theorem c6_openai_backoff_witness :
    (openAIAnalyze env429 "d" "f").2.sleeps = [1, 2, 4] ∧
    (deepseekAnalyze env429 "d" "f").2.sleeps = [] := by
  have h := c6_openai_backoff "d" "f" (by decide)
  exact ⟨h.2.1, h.2.2.2.2.1⟩

/-- C7: truncation law: for every record the validation path returns (i.e.
without falling back to the default), writing d0 for the stripped, lowercased
rendering of the parsed description: when d0 exceeds 72 characters the
returned description is exactly the first 69 characters of d0 followed by the
three-character ellipsis marker and has length exactly 72; when d0 is at most
72 characters the returned description is d0 unchanged. -/
theorem c7_truncation_law {kvs r : JObj} (h : validateResponse (.obj kvs) = some r)
    (d0 : String)
    (hd0 : d0 = pyStrip (pyLower (pyStr ((objGet kvs "description").getD (.str ""))))) :
    (d0.length > 72 →
      objGet r "description" = some (.str (pyTake 69 d0 ++ "...")) ∧
      (pyTake 69 d0 ++ "...").length = 72) ∧
    (d0.length ≤ 72 → objGet r "description" = some (.str d0)) := by
  obtain ⟨hreq, lines, hiter, hne, hr⟩ := validate_shape h
  subst hr
  subst hd0
  constructor
  · intro hlen
    exact ⟨by rw [assemble_desc, if_pos hlen], trunc_length hlen⟩
  · intro hlen
    rw [assemble_desc, if_neg (by omega)]

/-- C7 witness: at a parsed object whose description is one hundred letters,
validation succeeds and the returned description is the 69-letter prefix plus
the ellipsis, 72 characters in total. -/
theorem c7_truncation_law_witness :
    objGet ((validateResponse (.obj c7Obj)).getD defaultResponse) "description" =
      some (.str (pyTake 69 (pyStrip (pyLower aHundred)) ++ "...")) ∧
    (pyTake 69 (pyStrip (pyLower aHundred)) ++ "...").length = 72 := by
  have h : validateResponse (.obj c7Obj) =
      some ((validateResponse (.obj c7Obj)).getD defaultResponse) := rfl
  exact (c7_truncation_law h (pyStrip (pyLower aHundred)) rfl).1 (by decide)

/-- C8 (amended): in every non-default normalizer result the detail list is
exactly the surviving source lines mapped through formatLine, and formatLine
adds a prefix exactly once: a line whose stripped content already starts with
dash-space is returned verbatim (so no second prefix is ever added, though any
leading whitespace of the line survives), every other line is stripped and
given exactly one dash-space prefix, and consequently every returned entry is
non-empty and its stripped content starts with dash-space. -/
theorem c8_detail_line_law {kvs r : JObj} (h : validateResponse (.obj kvs) = some r) :
    (∃ lines,
      pyIterList (ddAfterSplit ((objGet kvs "detailed_description").getD (.arr []))) =
        some lines ∧
      objGet r "detailed_description" =
        some (.arr (((lines.filterMap keptLine).map formatLine).map JVal.str)) ∧
      ∀ s ∈ (lines.filterMap keptLine).map formatLine,
        s ≠ "" ∧ pyStarts "- " (pyStrip s) = true) ∧
    (∀ u, pyStarts "- " (pyStrip u) = true → formatLine u = u) ∧
    (∀ u, pyStarts "- " (pyStrip u) = false → formatLine u = "- " ++ pyStrip u) := by
  obtain ⟨hreq, lines, hiter, hne, hr⟩ := validate_shape h
  subst hr
  refine ⟨⟨lines, hiter, by rw [assemble_dd]; rfl, ?_⟩, ?_, ?_⟩
  · intro s hs
    obtain ⟨u, hu, rfl⟩ := List.mem_map.mp hs
    obtain ⟨a, _, hk⟩ := List.mem_filterMap.mp hu
    obtain ⟨h1, h2⟩ := keptLine_some hk
    exact formatLine_good h1 h2
  · intro u hu
    unfold formatLine
    rw [if_pos hu]
  · intro u hu
    unfold formatLine
    rw [if_neg (by simp [hu])]

/-- C8 witness: at the 100-letter-description object, whose single source line
already carries the prefix, the returned detail list keeps it verbatim. -/
theorem c8_detail_line_law_witness :
    objGet ((validateResponse (.obj c7Obj)).getD defaultResponse)
      "detailed_description" = some (.arr [.str "- a"]) := by
  have h : validateResponse (.obj c7Obj) =
      some ((validateResponse (.obj c7Obj)).getD defaultResponse) := rfl
  obtain ⟨⟨lines, hiter, hdd, _⟩, _, _⟩ := c8_detail_line_law h
  have h2 : pyIterList (ddAfterSplit ((objGet c7Obj "detailed_description").getD
      (.arr []))) = some [JVal.str "- a"] := rfl
  rw [hiter] at h2
  injection h2 with h2
  rw [hdd, h2]
  rfl

/-- C9: idempotence of defaulting: whenever normalizing some raw text yields a
record equal (Python ==) to the canonical default, re-running the normalizer
on the JSON serialization of the default itself returns exactly the canonical
default record. -/
theorem c9_default_idempotent (raw : String)
    (_hraw : dictEq (parseAiResponse (some raw)) defaultResponse = true) :
    parseAiResponse (some (jsonDumps (.obj defaultResponse))) = defaultResponse := rfl

/-- C9 witness: the empty raw text normalizes to the default, and re-running
the normalizer on the serialized default returns the default. -/
theorem c9_default_idempotent_witness :
    dictEq (parseAiResponse (some "")) defaultResponse = true ∧
    parseAiResponse (some (jsonDumps (.obj defaultResponse))) = defaultResponse :=
  ⟨rfl, c9_default_idempotent "" rfl⟩

/-- C10: frame property: validation mutates the parsed dict in place, so in
every non-default result each key other than type, scope, description,
detailed_description, breaking_change and breaking_description holds exactly
the value the provider supplied - arbitrary extra fields survive into the
returned record. -/
theorem c10_extra_fields_preserved {kvs r : JObj}
    (h : validateResponse (.obj kvs) = some r) (k : String)
    (hk : k ∉ ["type", "scope", "description", "detailed_description",
      "breaking_change", "breaking_description"]) :
    objGet r k = objGet kvs k := by
  obtain ⟨hreq, lines, hiter, hne, hr⟩ := validate_shape h
  subst hr
  simp only [List.mem_cons, List.not_mem_nil, or_false] at hk
  push_neg at hk
  obtain ⟨h1, h2, h3, h4, h5, h6⟩ := hk
  exact assemble_other _ _ _ (Ne.symm h3) (Ne.symm h1) (Ne.symm h6) (Ne.symm h5)
    (Ne.symm h4)

/-- C10 witness: an extra field named extra carrying 42 survives validation
unchanged. -/
theorem c10_extra_fields_preserved_witness :
    objGet ((validateResponse (.obj c10Obj)).getD defaultResponse) "extra" =
      some (.num 42) := by
  have h : validateResponse (.obj c10Obj) =
      some ((validateResponse (.obj c10Obj)).getD defaultResponse) := rfl
  rw [c10_extra_fields_preserved h "extra" (by decide)]
  rfl

end GCA
